import Mathlib

/-!
# EcoTrack backend: progress computation and unlocking engine

Shallow embedding of the achievement/goal progress engine:
`src/models/Achievement` (achievement schema methods and statics),
`src/models/Goal` (goal schema methods) and the achievement check route
with its `calculateAchievementProgress` helper
(`src/routes/achievements.js`).

Modelling conventions:
* Time instants are modelled at calendar-day granularity as integers
  (day numbers since the epoch).  The JS `setHours(0,0,0,0)` truncation
  is then the identity, and `new Date(0)` is day `0`.
* JS numbers are modelled as `Int` (the claims only use ordering and
  exact arithmetic on them).
* Calendar month/year subtraction (JS `setMonth(getMonth()-1)` /
  `setFullYear(getFullYear()-1)`) is abstracted as a `Calendar`
  parameter; no claim depends on its concrete value.
* Mongoose documents become structures; `save()` is the returned value;
  a `Date` field that may be unset is `Option Nat`/`Option Int`
  (JS falsiness of `undefined` is `Option.isNone`).
* MongoDB sorts string fields bytewise; for the ASCII rarity strings
  this is the character-wise lexicographic order of Lean's `String` order.
-/

/-- One activity record, restricted to the fields the metric queries read:
`date` (as a day number) and `status` (`src/models/Activity.js`). -/
structure Activity where
  day : Int
  status : String
deriving DecidableEq, Repr

/-- A goal document as read by the `goals_completed` metric query:
`status` and the mongoose `updatedAt` timestamp. -/
structure GoalDoc where
  status : String
  updatedAt : Int
deriving DecidableEq, Repr

/-- The user's carbon-footprint subdocument (`carbonFootprint.baseline`,
`carbonFootprint.total` in the User model). -/
structure UserCF where
  baseline : Int
  total : Int
deriving DecidableEq, Repr

/-- Achievement `criteria` subdocument: metric kind, threshold, timeframe
(the `unit` field is never read by the engine). -/
structure Criteria where
  metric : String
  threshold : Int
  timeframe : String
deriving DecidableEq, Repr

/-- An achievement document (`src/models/Achievement`), restricted to the
fields the check operation reads or writes. -/
structure Achievement where
  title : String
  rarity : String
  criteria : Criteria
  points : Int
  isUnlocked : Bool
  unlockedAt : Option Nat
  progressCurrent : Int
  progressRequired : Int
  progressLastUpdated : Nat
  isHidden : Bool
  expiresAt : Option Int
  isActive : Bool
  createdAt : Nat
deriving DecidableEq, Repr

/-- Method `achievementSchema.methods.updateProgress(newProgress)`:
set `progress.current = Math.max(0, newProgress)`, stamp
`progress.lastUpdated`, and if `current >= required && !isUnlocked`
set `isUnlocked = true` and record `unlockedAt`. -/
def Achievement.updateProgress (a : Achievement) (newProgress : Int) (now : Nat) :
    Achievement :=
  let a1 := { a with progressCurrent := max 0 newProgress, progressLastUpdated := now }
  if a1.progressRequired ≤ a1.progressCurrent ∧ a1.isUnlocked = false then
    { a1 with isUnlocked := true, unlockedAt := some now }
  else
    a1

/-- Method `achievementSchema.methods.unlock()`: idempotent force-unlock that sets
`progress.current = progress.required`. -/
def Achievement.unlock (a : Achievement) (now : Nat) : Achievement :=
  if a.isUnlocked = false then
    { a with isUnlocked := true, unlockedAt := some now,
             progressCurrent := a.progressRequired, progressLastUpdated := now }
  else
    a

/-- The eligibility filter of `getUserAvailableAchievements`:
`isUnlocked: false, isHidden: false, isActive: true`, and
`expiresAt` absent or strictly in the future. -/
def eligibleAchievement (now : Int) (a : Achievement) : Bool :=
  !a.isUnlocked && !a.isHidden && a.isActive &&
    (match a.expiresAt with
     | none => true
     | some t => decide (now < t))

/-- The code-point sequence of a string; BSON compares string keys by
this sequence lexicographically. -/
def rarityCodes (s : String) : List Nat := s.data.map Char.toNat

/-- The MongoDB sort key `{ rarity: 1, createdAt: 1 }`: bytewise string
comparison on `rarity` (lexicographic on the code points of the ASCII
rarity names), ties broken by `createdAt`. -/
def achvLE (a b : Achievement) : Prop :=
  List.Lex (· < ·) (rarityCodes a.rarity) (rarityCodes b.rarity) ∨
    (a.rarity = b.rarity ∧ a.createdAt ≤ b.createdAt)

instance : DecidableRel achvLE := fun a b => by
  unfold achvLE; infer_instance

/-- Static `achievementSchema.statics.getUserAvailableAchievements`: filter by the
eligibility predicate and sort by `{ rarity: 1, createdAt: 1 }`. -/
def getUserAvailableAchievements (now : Int) (l : List Achievement) :
    List Achievement :=
  List.insertionSort achvLE (l.filter (eligibleAchievement now))

/-- Abstract JS calendar arithmetic for the monthly/yearly windows
(`setMonth(getMonth()-1)`, `setFullYear(getFullYear()-1)`). -/
structure Calendar where
  monthBack : Int → Int
  yearBack : Int → Int

/-- The `switch (timeframe)` of `calculateAchievementProgress` resolving the
window start: daily → start of the current day (the day itself at day
granularity), weekly → now − 7 days, monthly/yearly → calendar arithmetic,
lifetime/default → `new Date(0)`, i.e. day 0. -/
def windowStart (cal : Calendar) (timeframe : String) (now : Int) : Int :=
  match timeframe with
  | "daily" => now
  | "weekly" => now - 7
  | "monthly" => cal.monthBack now
  | "yearly" => cal.yearBack now
  | _ => 0

/-- Does any activity in the list fall on calendar day `d`?  This is the
`activities.filter(... activityDate.getTime() === currentDate.getTime())
.length > 0` test of the streak loop. -/
def hasActivityOn (acts : List Activity) (d : Int) : Bool :=
  acts.any (fun a => a.day == d)

/-- The body of the streak `for` loop: walk backward one day at a time,
incrementing `streak` while the day under test has an activity, stopping
at the first gap or when the fuel (365-day cap) runs out. -/
def streakLoop (acts : List Activity) : Nat → Int → Nat → Nat
  | 0, _, streak => streak
  | fuel + 1, d, streak =>
      if hasActivityOn acts d then streakLoop acts fuel (d - 1) (streak + 1)
      else streak

/-- StreakCalculator: the `streak_days` case of
`calculateAchievementProgress` — scan up to 365 days backward from today. -/
def streakDays (acts : List Activity) (today : Int) : Nat :=
  streakLoop acts 365 today 0

/-- The pre-clamp value of the `switch (metric)` dispatch in
`calculateAchievementProgress`. -/
def rawMetricValue (cal : Calendar) (u : UserCF) (activities : List Activity)
    (goals : List GoalDoc) (crit : Criteria) (now : Int) : Int :=
  let startDate := windowStart cal crit.timeframe now
  match crit.metric with
  | "carbon_reduction" => max 0 (u.baseline - u.total)
  | "activities_count" =>
      ((activities.filter
        (fun a => decide (startDate ≤ a.day) && (a.status == "active"))).length : Int)
  | "streak_days" =>
      (streakDays
        (activities.filter
          (fun a => decide (startDate ≤ a.day) && (a.status == "active"))) now : Int)
  | "goals_completed" =>
      ((goals.filter
        (fun g => (g.status == "completed") && decide (startDate ≤ g.updatedAt))).length : Int)
  | _ => 0

/-- Helper `calculateAchievementProgress(user, achievement)` from
`src/routes/achievements.js`: resolve the window from the timeframe,
dispatch on the metric kind, and `return Math.min(progress, threshold)`. -/
def calculateAchievementProgress (cal : Calendar) (u : UserCF)
    (activities : List Activity) (goals : List GoalDoc) (crit : Criteria)
    (now : Int) : Int :=
  min (rawMetricValue cal u activities goals crit now) crit.threshold

/-- The `for (const achievement of availableAchievements)` loop of the
`POST /api/achievements/check` handler with a total evaluator: returns the
list of (possibly updated and persisted) achievements in iteration order,
paired with the `newlyUnlocked` pushes. -/
def checkLoop (ev : Achievement → Int) (now : Nat) :
    List Achievement → List Achievement × List Achievement
  | [] => ([], [])
  | a :: rest =>
      let progress := ev a
      if progress ≠ a.progressCurrent then
        let a2 := a.updateProgress progress now
        let r := checkLoop ev now rest
        (a2 :: r.1,
          (if a2.isUnlocked && a2.unlockedAt.isNone then [a2] else []) ++ r.2)
      else
        let r := checkLoop ev now rest
        (a :: r.1, r.2)

/-- The response of the check handler: `newlyUnlocked` and
`totalUnlocked = newlyUnlocked.length`. -/
structure CheckResult where
  newlyUnlocked : List Achievement
  totalUnlocked : Nat
deriving DecidableEq, Repr

/-- The whole `POST /api/achievements/check` handler on one user's data:
fetch eligible achievements, run the loop with the metric evaluator,
return the response together with the persisted achievement states. -/
def checkRoute (cal : Calendar) (u : UserCF) (activities : List Activity)
    (goals : List GoalDoc) (now : Int) (nowStamp : Nat)
    (l : List Achievement) : CheckResult × List Achievement :=
  let avail := getUserAvailableAchievements now l
  let r := checkLoop
    (fun a => calculateAchievementProgress cal u activities goals a.criteria now)
    nowStamp avail
  ({ newlyUnlocked := r.2, totalUnlocked := r.2.length }, r.1)

/-- The check handler with a fallible evaluator, modelling the single
`try/catch` that wraps the whole loop: a thrown evaluation error
propagates out of the loop and the handler answers with the catch
branch's server error instead of a result. -/
def checkRouteFallible (ev : Achievement → Except Unit Int) (now : Nat) :
    List Achievement → Except Unit (List Achievement × List Achievement)
  | [] => Except.ok ([], [])
  | a :: rest =>
      match ev a with
      | Except.error e => Except.error e
      | Except.ok progress =>
          let a2 := if progress ≠ a.progressCurrent then a.updateProgress progress now else a
          let push : List Achievement :=
            if (progress ≠ a.progressCurrent : Bool) && a2.isUnlocked && a2.unlockedAt.isNone
            then [a2] else []
          match checkRouteFallible ev now rest with
          | Except.error e => Except.error e
          | Except.ok r => Except.ok (a2 :: r.1, push ++ r.2)

/-- A goal milestone (`goalSchema` `milestones` array element). -/
structure Milestone where
  title : String
  targetValue : Int
  achievedValue : Int
  achieved : Bool
  achievedDate : Option Nat
deriving DecidableEq, Repr

/-- The goal `target` subdocument. -/
structure GoalTarget where
  value : Int
  unit : String
  timeframe : String
deriving DecidableEq, Repr

/-- The goal `current` subdocument. -/
structure GoalCurrent where
  value : Int
  lastUpdated : Nat
deriving DecidableEq, Repr

/-- The goal `reminders` subdocument. -/
structure Reminders where
  enabled : Bool
  frequency : String
  lastReminder : Option Nat
deriving DecidableEq, Repr

/-- A goal document (`src/models/Goal`). -/
structure Goal where
  title : String
  description : String
  category : String
  target : GoalTarget
  current : GoalCurrent
  startDate : Int
  endDate : Int
  status : String
  priority : String
  difficulty : String
  milestones : List Milestone
  tags : List String
  isPublic : Bool
  reminders : Reminders
  notes : String
deriving DecidableEq, Repr

/-- The body of the milestone `forEach` in `goalSchema.methods.updateProgress`:
an unachieved milestone whose target is reached records `achieved = true`,
`achievedValue = milestone.targetValue`, `achievedDate = now`. -/
def updateMilestone (currentValue : Int) (now : Nat) (m : Milestone) : Milestone :=
  if m.achieved = false ∧ m.targetValue ≤ currentValue then
    { m with achieved := true, achievedValue := m.targetValue,
             achievedDate := some now }
  else
    m

/-- Method `goalSchema.methods.updateProgress(newValue)`: clamp the new value to
`Math.max(0, newValue)`, stamp `current.lastUpdated`, complete the goal
when `current.value >= target.value && status === 'active'`, then sweep
the milestones. -/
def Goal.updateProgress (g : Goal) (newValue : Int) (now : Nat) : Goal :=
  let cur : GoalCurrent := { value := max 0 newValue, lastUpdated := now }
  let newStatus :=
    if g.target.value ≤ cur.value ∧ g.status = "active" then "completed"
    else g.status
  { g with current := cur, status := newStatus,
           milestones := g.milestones.map (updateMilestone cur.value now) }

/-! ### Concrete instances used to exercise the definitions -/

/-- A calendar for concrete runs (the lifetime examples never consult it). -/
def calLinear : Calendar := ⟨fun n => n - 30, fun n => n - 365⟩

/-- A baseline achievement record with schema defaults. -/
def baseAchievement : Achievement :=
  { title := "", rarity := "common",
    criteria := { metric := "carbon_reduction", threshold := 10, timeframe := "lifetime" },
    points := 0, isUnlocked := false, unlockedAt := none,
    progressCurrent := 0, progressRequired := 2, progressLastUpdated := 0,
    isHidden := false, expiresAt := none, isActive := true, createdAt := 0 }

/-- The spec's end-to-end user: baseline 10 tons, current total 7 tons. -/
def userE2E : UserCF := ⟨10, 7⟩

/-- The spec's end-to-end achievement:
criteria `{carbon_reduction, threshold 2, lifetime}`, `required = 2`. -/
def achvE2E : Achievement :=
  { baseAchievement with
    title := "carbon saver",
    criteria := { metric := "carbon_reduction", threshold := 2, timeframe := "lifetime" },
    progressRequired := 2 }

/-- An achievement whose evaluation is made to fail in the fallible model. -/
def achvBad : Achievement := { baseAchievement with title := "bad" }

/-- An achievement whose evaluation succeeds in the fallible model. -/
def achvGood : Achievement := { baseAchievement with title := "good" }

/-- A fallible evaluator that throws on `achvBad` and yields 1 otherwise. -/
def evalFailOnBad : Achievement → Except Unit Int :=
  fun a => if a.title = "bad" then Except.error () else Except.ok 1

/-- An eligible achievement of rarity `uncommon`, created first. -/
def achvUncommon : Achievement :=
  { baseAchievement with title := "u", rarity := "uncommon", createdAt := 0 }

/-- An eligible achievement of rarity `rare`, created second. -/
def achvRare : Achievement :=
  { baseAchievement with title := "r", rarity := "rare", createdAt := 1 }

/-- Modelled from the spec: the semantic rarity rank
`common < uncommon < rare < epic < legendary` stated in §4.3 and §8 of the
specification, used to compare the specified ordering with the code's. -/
def specRarityRank : String → Nat
  | "common" => 0
  | "uncommon" => 1
  | "rare" => 2
  | "epic" => 3
  | "legendary" => 4
  | _ => 5

/-- An achievement with `progress.required = 3`. -/
def achvReq3 : Achievement := { baseAchievement with progressRequired := 3 }

/-- Active activities on days 100, 99, 98 and 96 (gap on day 97):
the spec's streak example `{today, today-1, today-2, today-4}`. -/
def streakActs : List Activity :=
  [⟨100, "active"⟩, ⟨99, "active"⟩, ⟨98, "active"⟩, ⟨96, "active"⟩]

/-- The criteria of a lifetime streak achievement with a high threshold. -/
def critStreak : Criteria := ⟨"streak_days", 10, "lifetime"⟩

/-- A goal: target 100, active, one milestone at 50. -/
def goalBase : Goal :=
  { title := "g", description := "d", category := "carbon_reduction",
    target := { value := 100, unit := "kg", timeframe := "monthly" },
    current := { value := 0, lastUpdated := 0 },
    startDate := 0, endDate := 30, status := "active",
    priority := "medium", difficulty := "moderate",
    milestones := [{ title := "half", targetValue := 50, achievedValue := 0,
                     achieved := false, achievedDate := none }],
    tags := ["eco"], isPublic := false,
    reminders := { enabled := true, frequency := "weekly", lastReminder := none },
    notes := "n" }

/-- The milestone of `goalBase`. -/
def msHalf : Milestone :=
  { title := "half", targetValue := 50, achievedValue := 0,
    achieved := false, achievedDate := none }

instance : IsTotal Achievement achvLE := ⟨fun a b => by
  unfold achvLE
  have ht : List.Lex (· < ·) (rarityCodes a.rarity) (rarityCodes b.rarity) ∨
      rarityCodes a.rarity = rarityCodes b.rarity ∨
      List.Lex (· < ·) (rarityCodes b.rarity) (rarityCodes a.rarity) :=
    trichotomous_of _ _ _
  rcases ht with h | h | h
  · exact Or.inl (Or.inl h)
  · have hr : a.rarity = b.rarity := by
      have hinj : Function.Injective rarityCodes := by
        intro s t hst
        exact String.ext (List.map_injective_iff.mpr
          (fun x y hxy => Char.eq_of_val_eq (UInt32.ext hxy)) hst)
      exact hinj h
    rcases le_total a.createdAt b.createdAt with hc | hc
    · exact Or.inl (Or.inr ⟨hr, hc⟩)
    · exact Or.inr (Or.inr ⟨hr.symm, hc⟩)
  · exact Or.inr (Or.inl h)⟩

instance : IsTrans Achievement achvLE := ⟨fun a b c h1 h2 => by
  have lexTrans : ∀ {x y z : List Nat}, List.Lex (· < ·) x y →
      List.Lex (· < ·) y z → List.Lex (· < ·) x z := by
    intro x y z hxy hyz
    have hconn : List.Lex (· < ·) x z ∨ List.Lex (· < ·) z y :=
      IsOrderConnected.conn x z y hxy
    rcases hconn with h | h
    · exact h
    · exact absurd hyz (asymm h)
  unfold achvLE at h1 h2 ⊢
  rcases h1 with h1 | ⟨h1e, h1c⟩
  · rcases h2 with h2 | ⟨h2e, h2c⟩
    · exact Or.inl (lexTrans h1 h2)
    · exact Or.inl (h2e ▸ h1)
  · rcases h2 with h2 | ⟨h2e, h2c⟩
    · exact Or.inl (by rw [h1e]; exact h2)
    · exact Or.inr ⟨h1e.trans h2e, h1c.trans h2c⟩⟩

/-- C5: the metric evaluation is the clamp of the raw metric value to the
threshold, so it never exceeds `criteria.threshold` — for every calendar,
user state, activity list, goal list, criteria and current time. -/
theorem calculate_progress_clamped (cal : Calendar) (u : UserCF)
    (acts : List Activity) (goals : List GoalDoc) (crit : Criteria) (now : Int) :
    calculateAchievementProgress cal u acts goals crit now =
      min (rawMetricValue cal u acts goals crit now) crit.threshold ∧
    calculateAchievementProgress cal u acts goals crit now ≤ crit.threshold :=
  ⟨rfl, min_le_right _ _⟩

/-- C8: once `isUnlocked` is true, `updateProgress` — with any argument —
leaves `isUnlocked` true and `unlockedAt` untouched. -/
theorem unlocked_stays_unlocked (a : Achievement) (v : Int) (now : Nat)
    (h : a.isUnlocked = true) :
    (a.updateProgress v now).isUnlocked = true ∧
    (a.updateProgress v now).unlockedAt = a.unlockedAt := by
  unfold Achievement.updateProgress
  simp [h]

/-- Witness for C8: an unlocked achievement stays unlocked after a
progress update far below `required`. -/
theorem unlocked_stays_unlocked_witness :
    ({ achvReq3 with isUnlocked := true, unlockedAt := some 7 }.updateProgress
        (-5) 9).isUnlocked = true ∧
    ({ achvReq3 with isUnlocked := true, unlockedAt := some 7 }.updateProgress
        (-5) 9).unlockedAt = some 7 :=
  unlocked_stays_unlocked _ (-5) 9 rfl

/-- Counterexample for C4: `updateProgress 5` on an achievement with
`required = 3` flips `isUnlocked` to true but leaves
`progress.current = 5 ≠ 3 = progress.required`. -/
theorem unlock_not_exact_counterexample :
    (achvReq3.updateProgress 5 1).isUnlocked = true ∧
    (achvReq3.updateProgress 5 1).progressCurrent ≠
      (achvReq3.updateProgress 5 1).progressRequired := by
  decide

/-- C4 (amended): an `updateProgress` execution that flips `isUnlocked`
from false to true leaves `progress.current ≥ progress.required`
(equality is not guaranteed). -/
theorem unlock_reaches_required (a : Achievement) (v : Int) (now : Nat)
    (h0 : a.isUnlocked = false) (h1 : (a.updateProgress v now).isUnlocked = true) :
    (a.updateProgress v now).progressRequired ≤
      (a.updateProgress v now).progressCurrent := by
  unfold Achievement.updateProgress at *
  by_cases hc : a.progressRequired ≤ max 0 v
  · simp [hc, h0]
  · simp [hc, h0] at h1

/-- Witness for C4's amended theorem at `required = 3`, `newProgress = 5`. -/
theorem unlock_reaches_required_witness :
    (achvReq3.updateProgress 5 1).progressRequired ≤
      (achvReq3.updateProgress 5 1).progressCurrent :=
  unlock_reaches_required achvReq3 5 1 rfl (by decide)

/-- C7: `Goal.updateProgress` sets `current.value = max 0 newValue`, moves
`status` to `completed` exactly when the clamped value reaches
`target.value` while the status is `active`, and never leaves
`completed` once there. -/
theorem goal_completion_one_way (g : Goal) (v : Int) (now : Nat) :
    (g.updateProgress v now).current.value = max 0 v ∧
    (g.updateProgress v now).status =
      (if g.target.value ≤ max 0 v ∧ g.status = "active" then "completed"
       else g.status) ∧
    (g.status = "completed" → (g.updateProgress v now).status = "completed") ∧
    (g.status = "paused" → (g.updateProgress v now).status = "paused") ∧
    (g.status = "cancelled" → (g.updateProgress v now).status = "cancelled") := by
  refine ⟨rfl, rfl, ?_, ?_, ?_⟩ <;> intro h <;>
    simp [Goal.updateProgress, h]

/-- Witness for C7: the spec's goal-completion run — target 100, active;
`updateProgress 100` completes, a later `updateProgress 50` stays
completed. -/
theorem goal_completion_one_way_witness :
    (goalBase.updateProgress 100 1).status = "completed" ∧
    ((goalBase.updateProgress 100 1).updateProgress 50 2).status = "completed" :=
  ⟨by decide,
   (goal_completion_one_way (goalBase.updateProgress 100 1) 50 2).2.2.1 (by decide)⟩

lemma updateMilestone_of_achieved (c : Int) (n : Nat) (m : Milestone)
    (h : m.achieved = true) : updateMilestone c n m = m := by
  unfold updateMilestone
  simp [h]

lemma updateMilestone_twice (c : Int) (n1 n2 : Nat) (m : Milestone) :
    updateMilestone c n2 (updateMilestone c n1 m) = updateMilestone c n1 m := by
  unfold updateMilestone
  by_cases h : m.achieved = false ∧ m.targetValue ≤ c
  · simp [h]
  · simp [h]

lemma goal_updateProgress_milestones (g : Goal) (v : Int) (now : Nat) :
    (g.updateProgress v now).milestones =
      g.milestones.map (updateMilestone (max 0 v) now) := rfl

/-- C9: in `Goal.updateProgress`, every unachieved milestone whose target is
reached by the clamped new value is marked achieved with
`achievedValue = targetValue` (not the raw current value) and a stamped
`achievedDate`; an achieved milestone is never modified again, so a second
`updateProgress` with the same value changes no milestone. -/
theorem milestone_sweep (g : Goal) (v : Int) (n1 n2 : Nat) (m : Milestone) :
    (g.updateProgress v n1).milestones =
      g.milestones.map (updateMilestone (max 0 v) n1) ∧
    (m.achieved = false → m.targetValue ≤ max 0 v →
      (updateMilestone (max 0 v) n1 m).achieved = true ∧
      (updateMilestone (max 0 v) n1 m).achievedValue = m.targetValue ∧
      (updateMilestone (max 0 v) n1 m).achievedDate = some n1) ∧
    (m.achieved = true → updateMilestone (max 0 v) n1 m = m) ∧
    ((g.updateProgress v n1).updateProgress v n2).milestones =
      (g.updateProgress v n1).milestones := by
  refine ⟨rfl, ?_, updateMilestone_of_achieved _ _ _, ?_⟩
  · intro h1 h2
    unfold updateMilestone
    simp [h1, h2]
  · rw [goal_updateProgress_milestones, goal_updateProgress_milestones,
      List.map_map]
    exact List.map_congr_left (fun x _ => updateMilestone_twice (max 0 v) n1 n2 x)

/-- Witness for C9: value 60 achieves the milestone at 50 with
`achievedValue = 50`; a second `updateProgress 60` leaves the milestone
list unchanged. -/
theorem milestone_sweep_witness :
    (updateMilestone (max 0 60) 1 msHalf).achievedValue = msHalf.targetValue ∧
    ((goalBase.updateProgress 60 1).updateProgress 60 2).milestones =
      (goalBase.updateProgress 60 1).milestones :=
  ⟨((milestone_sweep goalBase 60 1 2 msHalf).2.1 (by decide) (by decide)).2.1,
   (milestone_sweep goalBase 60 1 2 msHalf).2.2.2⟩

lemma updateMilestone_title (c : Int) (n : Nat) (m : Milestone) :
    (updateMilestone c n m).title = m.title := by
  unfold updateMilestone
  split <;> rfl

lemma updateMilestone_targetValue (c : Int) (n : Nat) (m : Milestone) :
    (updateMilestone c n m).targetValue = m.targetValue := by
  unfold updateMilestone
  split <;> rfl

/-- C10: `Goal.updateProgress` changes only `current`, `status` and the
achievement marks of milestones — every descriptive field of the goal,
and the titles and target values of all milestones, are unchanged. -/
theorem goal_updateProgress_frame (g : Goal) (v : Int) (now : Nat) :
    (g.updateProgress v now).title = g.title ∧
    (g.updateProgress v now).description = g.description ∧
    (g.updateProgress v now).category = g.category ∧
    (g.updateProgress v now).target = g.target ∧
    (g.updateProgress v now).startDate = g.startDate ∧
    (g.updateProgress v now).endDate = g.endDate ∧
    (g.updateProgress v now).priority = g.priority ∧
    (g.updateProgress v now).difficulty = g.difficulty ∧
    (g.updateProgress v now).milestones.map Milestone.title =
      g.milestones.map Milestone.title ∧
    (g.updateProgress v now).milestones.map Milestone.targetValue =
      g.milestones.map Milestone.targetValue ∧
    (g.updateProgress v now).tags = g.tags ∧
    (g.updateProgress v now).isPublic = g.isPublic ∧
    (g.updateProgress v now).reminders = g.reminders ∧
    (g.updateProgress v now).notes = g.notes := by
  refine ⟨rfl, rfl, rfl, rfl, rfl, rfl, rfl, rfl, ?_, ?_, rfl, rfl, rfl, rfl⟩
  · rw [goal_updateProgress_milestones, List.map_map]
    exact List.map_congr_left (fun x _ => updateMilestone_title (max 0 v) now x)
  · rw [goal_updateProgress_milestones, List.map_map]
    exact List.map_congr_left (fun x _ => updateMilestone_targetValue (max 0 v) now x)

lemma streakLoop_acc (acts : List Activity) :
    ∀ (fuel : Nat) (d : Int) (s : Nat),
      streakLoop acts fuel d s = s + streakLoop acts fuel d 0 := by
  intro fuel
  induction fuel with
  | zero => intro d s; rfl
  | succ n ih =>
      intro d s
      cases h : hasActivityOn acts d with
      | true =>
          simp only [streakLoop, h, if_true]
          rw [ih (d - 1) (s + 1), ih (d - 1) 1]
          omega
      | false =>
          simp [streakLoop, h]

lemma streakLoop_le (acts : List Activity) :
    ∀ (fuel : Nat) (d : Int), streakLoop acts fuel d 0 ≤ fuel := by
  intro fuel
  induction fuel with
  | zero => intro d; exact Nat.le_refl 0
  | succ n ih =>
      intro d
      cases h : hasActivityOn acts d with
      | true =>
          simp only [streakLoop, h, if_true]
          rw [streakLoop_acc acts n (d - 1) 1]
          have := ih (d - 1)
          omega
      | false =>
          simp [streakLoop, h]

lemma streakLoop_run (acts : List Activity) :
    ∀ (fuel : Nat) (d : Int) (i : Nat),
      i < streakLoop acts fuel d 0 → hasActivityOn acts (d - i) = true := by
  intro fuel
  induction fuel with
  | zero => intro d i hi; simp [streakLoop] at hi
  | succ n ih =>
      intro d i hi
      cases h : hasActivityOn acts d with
      | true =>
          cases i with
          | zero => simpa using h
          | succ j =>
              simp only [streakLoop, h, if_true] at hi
              rw [streakLoop_acc acts n (d - 1) 1] at hi
              have hj : j < streakLoop acts n (d - 1) 0 := by omega
              have hrun := ih (d - 1) j hj
              have harith : d - 1 - (j : Int) = d - ((j : Int) + 1) := by ring
              rw [harith] at hrun
              simpa using hrun
      | false =>
          simp [streakLoop, h] at hi

lemma streakLoop_stop (acts : List Activity) :
    ∀ (fuel : Nat) (d : Int),
      streakLoop acts fuel d 0 < fuel →
      hasActivityOn acts (d - (streakLoop acts fuel d 0 : Int)) = false := by
  intro fuel
  induction fuel with
  | zero => intro d hd; omega
  | succ n ih =>
      intro d hd
      cases h : hasActivityOn acts d with
      | true =>
          simp only [streakLoop, h, if_true] at hd ⊢
          rw [streakLoop_acc acts n (d - 1) 1] at hd ⊢
          have hlt : streakLoop acts n (d - 1) 0 < n := by omega
          have hstop := ih (d - 1) hlt
          have harith : d - 1 - (streakLoop acts n (d - 1) 0 : Int) =
              d - ((1 + streakLoop acts n (d - 1) 0 : Nat) : Int) := by
            push_cast
            ring
          rw [harith] at hstop
          exact hstop
      | false =>
          simp only [streakLoop, h]
          simpa using h

lemma streakLoop_congr (acts1 acts2 : List Activity)
    (h : ∀ d : Int, hasActivityOn acts1 d = hasActivityOn acts2 d) :
    ∀ (fuel : Nat) (d : Int) (s : Nat),
      streakLoop acts1 fuel d s = streakLoop acts2 fuel d s := by
  intro fuel
  induction fuel with
  | zero => intro d s; rfl
  | succ n ih =>
      intro d s
      simp only [streakLoop, h d]
      cases hb : hasActivityOn acts2 d with
      | true => simp [hb, ih]
      | false => simp [hb]

/-- C6: `streak_days` counts consecutive calendar days ending today that
each contain at least one activity — every day within the streak has one,
the first day past the streak has none (when the 365-day cap was not hit),
the result never exceeds 365, a day without activity today gives 0, the
count depends only on which days have activity (duplicates count once),
and on the spec's example `{today, today-1, today-2, today-4}` over the
lifetime timeframe the metric is 3. -/
theorem streak_days_spec (acts acts2 : List Activity) (today : Int) :
    streakDays acts today ≤ 365 ∧
    (∀ i : Nat, i < streakDays acts today →
      hasActivityOn acts (today - i) = true) ∧
    (streakDays acts today < 365 →
      hasActivityOn acts (today - (streakDays acts today : Int)) = false) ∧
    (hasActivityOn acts today = false → streakDays acts today = 0) ∧
    ((∀ d : Int, hasActivityOn acts d = hasActivityOn acts2 d) →
      streakDays acts today = streakDays acts2 today) ∧
    streakDays streakActs 100 = 3 ∧
    calculateAchievementProgress calLinear ⟨0, 0⟩ streakActs [] critStreak 100 = 3 := by
  refine ⟨streakLoop_le acts 365 today, streakLoop_run acts 365 today,
    streakLoop_stop acts 365 today, ?_,
    fun h => streakLoop_congr acts acts2 h 365 today 0, by decide, by decide⟩
  intro h
  show streakLoop acts (364 + 1) today 0 = 0
  simp [streakLoop, h]

/-- Witness for C6: day `today - 0` of the example streak has an activity,
and with no activity today the streak is 0. -/
theorem streak_days_spec_witness :
    hasActivityOn streakActs ((100 : Int) - (0 : Nat)) = true ∧
    streakDays ([] : List Activity) 0 = 0 :=
  ⟨(streak_days_spec streakActs streakActs 100).2.1 0 (by decide),
   (streak_days_spec [] [] 0).2.2.2.1 (by decide)⟩

/-- C1 (code defect): on the spec's end-to-end input — baseline 10,
current total 7, criteria `{carbon_reduction, threshold 2, lifetime}`,
`required = 2` — the check run computes progress 2, flips the
achievement's `isUnlocked` to true, yet the response's `newlyUnlocked` is
empty and `totalUnlocked` is 0: the push guard
`achievement.isUnlocked && !achievement.unlockedAt` runs only after
`updateProgress` has already set `unlockedAt`. -/
theorem check_newly_unlocked_always_empty :
    ((checkRoute calLinear userE2E [] [] 100 1 [achvE2E]).2.map
        Achievement.isUnlocked = [true]) ∧
    (checkRoute calLinear userE2E [] [] 100 1 [achvE2E]).1.newlyUnlocked = [] ∧
    (checkRoute calLinear userE2E [] [] 100 1 [achvE2E]).1.totalUnlocked = 0 := by
  decide

/-- Counterexample for C2: with an evaluator that fails on the first
achievement of a two-element batch, the check call answers with the error
branch — no partial result, and the second achievement is never reached. -/
theorem check_failure_aborts_counterexample :
    checkRouteFallible evalFailOnBad 0 [achvBad, achvGood] = Except.error () := by
  rfl

/-- C2 (amended): a failure while evaluating one achievement aborts the
whole batch — whatever achievements remain, the handler returns the
server-error branch instead of a partial result. -/
theorem check_failure_aborts (ev : Achievement → Except Unit Int) (now : Nat)
    (a : Achievement) (rest : List Achievement) (h : ev a = Except.error ()) :
    checkRouteFallible ev now (a :: rest) = Except.error () := by
  unfold checkRouteFallible
  rw [h]

/-- Witness for C2's amended theorem on a three-element batch. -/
theorem check_failure_aborts_witness :
    checkRouteFallible evalFailOnBad 5 [achvBad, achvGood, achvGood] =
      Except.error () :=
  check_failure_aborts evalFailOnBad 5 achvBad [achvGood, achvGood] rfl

/-- Counterexample for C3: the fetch sorts rarity `"rare"` before
`"uncommon"` (bytewise string comparison), while the claimed semantic
order `common < uncommon < rare < epic < legendary` would list the
uncommon achievement first. -/
theorem rarity_order_counterexample :
    getUserAvailableAchievements 0 [achvUncommon, achvRare] =
      [achvRare, achvUncommon] ∧
    specRarityRank achvUncommon.rarity < specRarityRank achvRare.rarity := by
  decide

/-- C3 (amended): the fetch used by the check operation returns exactly
the eligible achievements (isUnlocked=false, isHidden=false,
isActive=true, not expired), sorted by the rarity string in bytewise
lexicographic order (common < epic < legendary < rare < uncommon) with
ties broken by creation time; it is a pure function of its inputs, hence
deterministic across repeated calls on unchanged data. -/
theorem available_achievements_order (now : Int) (l : List Achievement) :
    List.Sorted achvLE (getUserAvailableAchievements now l) ∧
    List.Perm (getUserAvailableAchievements now l)
      (l.filter (eligibleAchievement now)) ∧
    (∀ a, a ∈ getUserAvailableAchievements now l →
      eligibleAchievement now a = true) := by
  refine ⟨List.sorted_insertionSort achvLE _, List.perm_insertionSort achvLE _, ?_⟩
  intro a ha
  have hmem : a ∈ l.filter (eligibleAchievement now) :=
    (List.perm_insertionSort achvLE _).subset ha
  exact (List.mem_filter.mp hmem).2

/-- Witness for C3's amended theorem: the rare achievement in the fetched
list is eligible. -/
theorem available_achievements_order_witness :
    eligibleAchievement 0 achvRare = true :=
  (available_achievements_order 0 [achvUncommon, achvRare]).2.2 achvRare (by decide)
